import Mathlib

/-!
Verification of the geometric feature extraction pipeline
(`geo3dfeatures/extract.py`) against its natural-language specification.

Modelling conventions used throughout this development:

* Machine floating-point numbers are modelled by the type `Fl`: a finite
  value carries an exact rational, and the special values `nan`, `inf`,
  `ninf` model the IEEE specials produced by numpy scalar arithmetic
  (which warns instead of raising on division by zero).  Python-level
  exceptions (`ValueError` from `math.log` / `max()` on an empty sequence,
  `ZeroDivisionError` from plain-float division, the `assert` statement)
  are modelled with `Except PyErr`.
* Irrational primitives of the runtime (`math.sqrt`, `math.log`, the cube
  root `** (1/3)`, the constant `math.pi`) cannot return exact rationals,
  so they enter the model as parameters (`rt`, `lg`, `cb`, `pi`): every
  theorem below holds for an arbitrary choice of those parameters, hence
  in particular for the true floating-point ones.
* The external library calls (`sklearn.decomposition.PCA`,
  `sklearn.neighbors.KDTree`, `numpy.random.choice`) are out of the
  repository's scope; a PCA is an arbitrary deterministic function from a
  neighborhood to its singular values (`pca3`, `pca2`), the KD-tree query
  is exact k-nearest-neighbours on squared distances, and the random draw
  made by `numpy.random.choice` is the parameter `rand`.
* `pandas` aggregation (`groupby` + `merge` in
  `build_accumulation_features`) is modelled point-wise: the merged row of
  a point carries the aggregate statistics of the points sharing its
  `(xbin, ybin)` cell, which is what the `groupby`/`merge` pair computes.
-/

/-- Python-level exceptions reachable in `extract.py`. -/
inductive PyErr where
  | valueError : PyErr
  | zeroDivisionError : PyErr
  | assertionError : PyErr
deriving DecidableEq

/-- Model of a double value: an exact finite rational or an IEEE special. -/
inductive Fl where
  | fin : ℚ → Fl
  | nan : Fl
  | inf : Fl
  | ninf : Fl
deriving DecidableEq

/-- Negation of a double. -/
def Fl.fneg : Fl → Fl
  | fin q => fin (-q)
  | nan => nan
  | inf => ninf
  | ninf => inf

/-- Addition of doubles (numpy scalar semantics, exact on finite values). -/
def Fl.fadd : Fl → Fl → Fl
  | fin a, fin b => fin (a + b)
  | fin _, inf => inf
  | fin _, ninf => ninf
  | inf, fin _ => inf
  | ninf, fin _ => ninf
  | inf, inf => inf
  | ninf, ninf => ninf
  | inf, ninf => nan
  | ninf, inf => nan
  | nan, _ => nan
  | _, nan => nan

/-- Subtraction of doubles. -/
def Fl.fsub (a b : Fl) : Fl := Fl.fadd a (Fl.fneg b)

/-- Multiplication of doubles. -/
def Fl.fmul : Fl → Fl → Fl
  | fin a, fin b => fin (a * b)
  | fin a, inf => if 0 < a then inf else if a < 0 then ninf else nan
  | fin a, ninf => if 0 < a then ninf else if a < 0 then inf else nan
  | inf, fin b => if 0 < b then inf else if b < 0 then ninf else nan
  | ninf, fin b => if 0 < b then ninf else if b < 0 then inf else nan
  | inf, inf => inf
  | ninf, ninf => inf
  | inf, ninf => ninf
  | ninf, inf => ninf
  | nan, _ => nan
  | _, nan => nan

/-- Division of doubles: numpy scalar division emits a warning and returns
`inf`/`-inf`/`nan` on a zero divisor instead of raising. -/
def Fl.fdiv : Fl → Fl → Fl
  | fin a, fin b =>
      if b = 0 then (if a = 0 then nan else if 0 < a then inf else ninf)
      else fin (a / b)
  | fin _, inf => fin 0
  | fin _, ninf => fin 0
  | inf, fin b => if b < 0 then ninf else inf
  | ninf, fin b => if b < 0 then inf else ninf
  | inf, inf => nan
  | inf, ninf => nan
  | ninf, inf => nan
  | ninf, ninf => nan
  | nan, _ => nan
  | _, nan => nan

/-- Sum of a list of doubles (`np.sum`). -/
def Fl.fsum (l : List Fl) : Fl := l.foldl Fl.fadd (Fl.fin 0)

/-- `math.log` on a double: raises `ValueError` on a non-positive finite
argument (and on `-inf`), returns `nan` on `nan` and `inf` on `inf`.
The exact value of the logarithm on a positive rational is the
uninterpreted parameter `lg`. -/
def Fl.flog (lg : ℚ → ℚ) : Fl → Except PyErr Fl
  | fin q => if q ≤ 0 then .error .valueError else .ok (fin (lg q))
  | nan => .ok nan
  | inf => .ok inf
  | ninf => .error .valueError

/-- numpy `x ** (1/3)`: `nan` (with a warning) on a negative base, the
uninterpreted cube root `cb` on a non-negative finite base. -/
def Fl.fcbrt (cb : ℚ → ℚ) : Fl → Fl
  | fin q => if q < 0 then nan else fin (cb q)
  | nan => nan
  | inf => inf
  | ninf => nan

/-- Sum of a list of rationals (`sum` builtin on exact values). -/
def sumQ (l : List ℚ) : ℚ := l.foldl (· + ·) 0

/-- Minimum of a list of rationals (`np.min`/`min`; 0 on the empty list,
which the source never reaches: it raises there and the callers below
model that raise explicitly). -/
def minQ : List ℚ → ℚ
  | [] => 0
  | [x] => x
  | x :: y :: xs => min x (minQ (y :: xs))

/-- Maximum of a list of rationals (`np.max`/`max`). -/
def maxQ : List ℚ → ℚ
  | [] => 0
  | [x] => x
  | x :: y :: xs => max x (maxQ (y :: xs))

/-- Arithmetic mean of a list of rationals. -/
def meanQ (l : List ℚ) : ℚ := sumQ l / (l.length : ℚ)

/-- Population variance (`np.std` squares this before the square root). -/
def varPop (l : List ℚ) : ℚ :=
  sumQ (l.map (fun z => (z - meanQ l) ^ 2)) / (l.length : ℚ)

/-- Sample variance with one delta degree of freedom (`pandas` `std`). -/
def varSamp (l : List ℚ) : ℚ :=
  sumQ (l.map (fun z => (z - meanQ l) ^ 2)) / ((l.length : ℚ) - 1)

/-- `features3d(eigenvalues)`: the Brodu-Lague barycentric coordinates
`[a, b]` with `a = eigenvalues[0] - eigenvalues[1]` and
`b = 2*eigenvalues[0] + 4*eigenvalues[1] - 2`.  The pipeline always passes
exactly the three singular values of the 3D PCA, modelled as a triple. -/
def features3d (eigenvalues : ℚ × ℚ × ℚ) : List ℚ :=
  [eigenvalues.1 - eigenvalues.2.1, 2 * eigenvalues.1 + 4 * eigenvalues.2.1 - 2]

/-- `normalize_over_1(l)`: `[item / sum(l) for item in l]` under numpy
scalar division (a zero sum yields `nan`/`inf` entries, no raise). -/
def normalize_over_1 (l : List ℚ) : List Fl :=
  l.map (fun item => Fl.fdiv (Fl.fin item) (Fl.fin (sumQ l)))

/-- `compute_3D_features(lbda)` for the three 3D-PCA singular values:
normalizes them to sum 1 and derives the eight Weinmann shape
descriptors; the `math.log` calls inside the eigenentropy comprehension
raise `ValueError` on a non-positive normalized eigenvalue. -/
def compute_3D_features (lg cb : ℚ → ℚ) (lbda : ℚ × ℚ × ℚ) :
    Except PyErr (List Fl) :=
  match normalize_over_1 [lbda.1, lbda.2.1, lbda.2.2] with
  | [e0, e1, e2] =>
    let curvature_change := e2
    let linearity := Fl.fdiv (Fl.fsub e0 e1) e0
    let planarity := Fl.fdiv (Fl.fsub e1 e2) e0
    let scattering := Fl.fdiv e2 e0
    let omnivariance := Fl.fcbrt cb (Fl.fmul (Fl.fmul e0 e1) e2)
    let anisotropy := Fl.fdiv (Fl.fsub e0 e2) e0
    match Fl.flog lg e0 with
    | .error er => .error er
    | .ok g0 =>
      match Fl.flog lg e1 with
      | .error er => .error er
      | .ok g1 =>
        match Fl.flog lg e2 with
        | .error er => .error er
        | .ok g2 =>
          let eigenentropy :=
            Fl.fneg (Fl.fsum [Fl.fmul e0 g0, Fl.fmul e1 g1, Fl.fmul e2 g2])
          let eigenvalue_sum := Fl.fin (sumQ [lbda.1, lbda.2.1, lbda.2.2])
          .ok [curvature_change, linearity, planarity, scattering,
               omnivariance, anisotropy, eigenentropy, eigenvalue_sum]
  | _ => .error .valueError

/-- `compute_2D_features(lbda)` for the two 2D-PCA singular values:
`[sum(lbda), lbda[0] / lbda[1]]`, the ratio under numpy division. -/
def compute_2D_features (lbda : ℚ × ℚ) : List Fl :=
  [Fl.fin (lbda.1 + lbda.2), Fl.fdiv (Fl.fin lbda.1) (Fl.fin lbda.2)]

/-- Alpha plus beta computed on eigenvalues that really are normalized to
sum 1 (the precondition `features3d`'s docstring states) never exceeds 1:
`a + b = 3*e0 + 3*e1 - 2 = 1 - 3*e2`.  This is the behaviour the spec
ascribes to the pipeline; `generate_features` breaks the precondition. -/
theorem features3d_sum_le_one_of_normalized (e0 e1 e2 : ℚ)
    (hsum : e0 + e1 + e2 = 1) (he2 : 0 ≤ e2) :
    sumQ (features3d (e0, e1, e2)) ≤ 1 := by
  simp only [features3d, sumQ, List.foldl]
  linarith

/-- Normalization helper: witness instance of the previous lemma. -/
theorem features3d_sum_le_one_of_normalized_witness :
    (1/2 : ℚ) + (1/3 : ℚ) + (1/6 : ℚ) = 1 ∧ (0 : ℚ) ≤ 1/6 ∧
      sumQ (features3d (1/2, 1/3, 1/6)) ≤ 1 :=
  ⟨by norm_num, by norm_num,
    features3d_sum_le_one_of_normalized (1/2) (1/3) (1/6) (by norm_num)
      (by norm_num)⟩

/-- C1: the claim states that the barycentric coordinates satisfy
`alpha + beta <= 1` for the values `generate_features` passes, namely the
raw (un-normalized) singular values of the neighborhood's 3D PCA.  This
is false: at singular values `(2, 1, 0)` — routinely produced by any
neighborhood of metre-scale extent — `features3d` returns `alpha = 1`,
`beta = 6`, so `alpha + beta = 7 > 1`.  The bound only holds under the
normalized-to-sum-1 precondition documented in `features3d`'s docstring
(see `features3d_sum_le_one_of_normalized`), which the call site in
`generate_features` violates by passing `.singular_values_` directly. -/
theorem features3d_alpha_beta_exceeds_one :
    features3d (2, 1, 0) = [1, 6] ∧ ¬ ((1 : ℚ) + 6 ≤ 1) := by
  constructor
  · norm_num [features3d]
  · norm_num

/-- C2: the claim says degenerate neighborhoods yield NaN descriptors and
never an error.  Three facts, for every choice of the log / cube-root
parameters:
1. with a zero smallest normalized eigenvalue but `e0 > 0` (for example
   singular values `(1, 1, 0)`, a perfectly planar neighborhood),
   `compute_3D_features` raises `ValueError` — `math.log(0.0)` is a
   Python `math domain error`, so the claimed NaN marker is never
   produced and the pipeline aborts for that point;
2. in the fully degenerate case `e0 = 0` (all singular values zero) the
   code does behave as claimed: numpy's `0.0/0.0` yields `nan` without
   raising and every ratio descriptor is NaN;
3. with a zero second 2D eigenvalue, `compute_2D_features` returns
   `inf` (numpy division warning), not the claimed NaN. -/
theorem compute_features_degenerate_raises :
    (∀ lg cb : ℚ → ℚ, compute_3D_features lg cb (1, 1, 0) = .error .valueError)
    ∧ (∀ lg cb : ℚ → ℚ, compute_3D_features lg cb (0, 0, 0) =
        .ok [Fl.nan, Fl.nan, Fl.nan, Fl.nan, Fl.nan, Fl.nan, Fl.nan, Fl.fin 0])
    ∧ compute_2D_features (2, 0) = [Fl.fin 2, Fl.inf] := by
  refine ⟨fun lg cb => ?_, fun lg cb => ?_, ?_⟩
  · norm_num [compute_3D_features, normalize_over_1, sumQ, Fl.fdiv, Fl.flog]
  · norm_num [compute_3D_features, normalize_over_1, sumQ, Fl.fdiv, Fl.flog,
      Fl.fsub, Fl.fadd, Fl.fneg, Fl.fmul, Fl.fcbrt, Fl.fsum]
  · norm_num [compute_2D_features, Fl.fdiv]

/-- `compute_3D_properties(z_neighbors, distances)`: radius, z-range,
z-standard-deviation, density and the NaN verticality placeholder.
`np.max` and `np.ptp` raise `ValueError` on an empty array (modelled
first, in source order); the density division is numpy scalar division. -/
def compute_3D_properties (rt : ℚ → ℚ) (pi : ℚ) (z_neighbors distances : List ℚ) :
    Except PyErr (List Fl) :=
  match distances with
  | [] => .error .valueError
  | _ :: _ =>
    match z_neighbors with
    | [] => .error .valueError
    | _ :: _ =>
      let radius := maxQ distances
      let z_range := maxQ z_neighbors - minQ z_neighbors
      let std_deviation := rt (varPop z_neighbors)
      let density :=
        Fl.fdiv (Fl.fin ((distances.length : ℚ) + 1))
          (Fl.fin ((4 / 3) * pi * radius ^ 3))
      .ok [Fl.fin radius, Fl.fin z_range, Fl.fin std_deviation, density,
        Fl.nan]

/-- `compute_2D_properties(point, neighbors)`: planar distances via
`math.sqrt` (parameter `rt` applied to the exact squared distance),
`max()` raising `ValueError` on an empty sequence, and a plain-Python
float division that raises `ZeroDivisionError` on a zero denominator. -/
def compute_2D_properties (rt : ℚ → ℚ) (pi : ℚ) (point : ℚ × ℚ)
    (neighbors : List (ℚ × ℚ)) : Except PyErr (List Fl) :=
  let distances :=
    neighbors.map (fun q => rt ((q.1 - point.1) ^ 2 + (q.2 - point.2) ^ 2))
  match neighbors with
  | [] => .error .valueError
  | _ :: _ =>
    let radius_2D := maxQ distances
    if pi * radius_2D ^ 2 = 0 then .error .zeroDivisionError
    else
      .ok [Fl.fin radius_2D,
        Fl.fin (((distances.length : ℚ) + 1) / (pi * radius_2D ^ 2))]

/-- Every member of a list is bounded by `maxQ`. -/
theorem le_maxQ_of_mem {x : ℚ} : ∀ {l : List ℚ}, x ∈ l → x ≤ maxQ l
  | [], h => absurd h (List.not_mem_nil x)
  | [y], h => by
      rcases List.mem_singleton.mp h with rfl
      exact le_of_eq rfl
  | y :: z :: zs, h => by
      rcases List.mem_cons.mp h with rfl | h2
      · exact le_max_left _ _
      · exact le_trans (le_maxQ_of_mem h2) (le_max_right _ _)

/-- Every member of a list is bounded below by `minQ`. -/
theorem minQ_le_of_mem {x : ℚ} : ∀ {l : List ℚ}, x ∈ l → minQ l ≤ x
  | [], h => absurd h (List.not_mem_nil x)
  | [y], h => by
      rcases List.mem_singleton.mp h with rfl
      exact le_of_eq rfl
  | y :: z :: zs, h => by
      rcases List.mem_cons.mp h with rfl | h2
      · exact min_le_left _ _
      · exact le_trans (min_le_right _ _) (minQ_le_of_mem h2)

/-- numpy division of finite doubles with a nonzero divisor is exact. -/
theorem Fl.fdiv_fin_of_ne {a b : ℚ} (h : b ≠ 0) :
    Fl.fdiv (Fl.fin a) (Fl.fin b) = Fl.fin (a / b) := by
  simp [Fl.fdiv, h]

/-- C8: `compute_3D_properties` always returns the NaN marker as its
fifth (verticality) component: for every square root / pi parameter and
every non-empty neighborhood (the pipeline always passes at least one
point returned by the k-nearest query), the result is
`[radius, z_range, std_dev, density, nan]`.  (On empty inputs the source
raises `ValueError` in `np.max` before any component is produced.) -/
theorem compute_3D_properties_verticality_nan (rt : ℚ → ℚ) (pi : ℚ)
    (z_neighbors distances : List ℚ)
    (hz : z_neighbors ≠ []) (hd : distances ≠ []) :
    ∃ radius z_range std_dev density,
      compute_3D_properties rt pi z_neighbors distances =
        .ok [radius, z_range, std_dev, density, Fl.nan] := by
  match distances, z_neighbors with
  | _ :: _, _ :: _ => exact ⟨_, _, _, _, rfl⟩

/-- Witness: C8 at a concrete one-point neighborhood. -/
theorem compute_3D_properties_verticality_nan_witness :
    ([(0 : ℚ)] ≠ []) ∧ ([(1 : ℚ)] ≠ []) ∧
      ∃ radius z_range std_dev density,
        compute_3D_properties (fun q => q) 3 [0] [1] =
          .ok [radius, z_range, std_dev, density, Fl.nan] :=
  ⟨by simp, by simp,
    compute_3D_properties_verticality_nan (fun q => q) 3 [0] [1]
      (by simp) (by simp)⟩

/-- Spec-side definition: "radius (max neighbor distance)". -/
def spec_radius (distances : List ℚ) : ℚ := maxQ distances

/-- Spec-side definition: "z-range (max - min z among neighbors)". -/
def spec_z_range (zs : List ℚ) : ℚ := maxQ zs - minQ zs

/-- Spec-side definition:
"point density = (neighbor_count+1) / ((4/3)*pi*radius^3)". -/
def spec_density (neighbor_count : ℕ) (pi radius : ℚ) : ℚ :=
  ((neighbor_count : ℚ) + 1) / ((4 / 3) * pi * radius ^ 3)

/-- Spec-side definition: "radius_2D (max planar distance from query
point to neighbors)", the planar distance being the Euclidean distance
of the `(x, y)` projections (square root parameter `rt`). -/
def spec_radius_2D (rt : ℚ → ℚ) (point : ℚ × ℚ) (neighbors : List (ℚ × ℚ)) : ℚ :=
  maxQ (neighbors.map (fun q => rt ((q.1 - point.1) ^ 2 + (q.2 - point.2) ^ 2)))

/-- Spec-side definition: "density_2D = (neighbor_count+1) / (pi*radius_2D^2)". -/
def spec_density_2D (neighbor_count : ℕ) (pi radius_2D : ℚ) : ℚ :=
  ((neighbor_count : ℚ) + 1) / (pi * radius_2D ^ 2)

/-- C9 counterexample: a neighborhood can have a neighbor at nonzero
(3D) distance while all planar projections coincide with the query
point — e.g. a single neighbor 5 units straight above.  The 3D
properties succeed (radius 5), but `compute_2D_properties` divides the
plain Python way by `pi * 0**2 = 0.0` and raises `ZeroDivisionError`, so
the claimed `density_2D` value is never produced. -/
theorem compute_2D_properties_zero_planar_radius :
    (∃ p, compute_3D_properties (fun q => q) 3 [5] [5] = .ok p)
    ∧ compute_2D_properties (fun q => q) 3 (0, 0) [(0, 0)] =
        .error .zeroDivisionError := by
  constructor
  · exact ⟨_, rfl⟩
  · norm_num [compute_2D_properties, maxQ]

/-- C9 (amended): for every neighborhood with a neighbor at nonzero
distance — and, for the 2D part, a nonzero maximal planar distance,
which the claim missed (see `compute_2D_properties_zero_planar_radius`)
— the computed local surface properties equal the spec formulas:
radius is the max neighbor distance, z-range is max minus min of the
neighbor z-coordinates, density is `(n+1)/((4/3)*pi*radius^3)`,
radius_2D is the max planar distance to the query point, and density_2D
is `(n+1)/(pi*radius_2D^2)`. -/
theorem surface_properties_match_spec (rt : ℚ → ℚ) (pi : ℚ)
    (z_neighbors distances : List ℚ) (point : ℚ × ℚ)
    (neighbors : List (ℚ × ℚ))
    (hz : z_neighbors ≠ []) (hd : distances ≠ [])
    (hpos : ∀ d ∈ distances, 0 ≤ d) (hsome : ∃ d ∈ distances, d ≠ 0)
    (hpi : 0 < pi) (hnb : neighbors ≠ [])
    (hr2 : spec_radius_2D rt point neighbors ≠ 0) :
    (∃ sd, compute_3D_properties rt pi z_neighbors distances =
        .ok [Fl.fin (spec_radius distances), Fl.fin (spec_z_range z_neighbors),
          sd, Fl.fin (spec_density distances.length pi (spec_radius distances)),
          Fl.nan])
    ∧ compute_2D_properties rt pi point neighbors =
        .ok [Fl.fin (spec_radius_2D rt point neighbors),
          Fl.fin (spec_density_2D neighbors.length pi
            (spec_radius_2D rt point neighbors))] := by
  have hrpos : 0 < maxQ distances := by
    obtain ⟨d0, hd0, hd0ne⟩ := hsome
    exact lt_of_lt_of_le (lt_of_le_of_ne (hpos d0 hd0) (Ne.symm hd0ne))
      (le_maxQ_of_mem hd0)
  constructor
  · have hden : (4 / 3 : ℚ) * pi * maxQ distances ^ 3 ≠ 0 := by positivity
    match distances, z_neighbors with
    | d :: ds, z :: zs =>
      refine ⟨Fl.fin (rt (varPop (z :: zs))), ?_⟩
      simp only [compute_3D_properties, spec_radius, spec_z_range, spec_density,
        Fl.fdiv_fin_of_ne hden]
  · have hr2den : pi * spec_radius_2D rt point neighbors ^ 2 ≠ 0 := by
      have : spec_radius_2D rt point neighbors ^ 2 ≠ 0 := pow_ne_zero _ hr2
      exact mul_ne_zero (ne_of_gt hpi) this
    match neighbors with
    | n :: ns =>
      simp only [compute_2D_properties, spec_radius_2D, spec_density_2D] at hr2den ⊢
      rw [if_neg hr2den]
      simp [List.length_map]

/-- Witness: C9 amended at a concrete neighborhood (one neighbor at 3D
distance 5, planar offset (3,4), identity square-root parameter). -/
theorem surface_properties_match_spec_witness :
    ([(0 : ℚ)] ≠ []) ∧ ([(5 : ℚ)] ≠ []) ∧ (∀ d ∈ [(5 : ℚ)], 0 ≤ d) ∧
      (∃ d ∈ [(5 : ℚ)], d ≠ 0) ∧ (0 : ℚ) < 3 ∧
      ([((3 : ℚ), (4 : ℚ))] ≠ []) ∧
      spec_radius_2D (fun q => q) (0, 0) [(3, 4)] ≠ 0 ∧
      ((∃ sd, compute_3D_properties (fun q => q) 3 [0] [5] =
          .ok [Fl.fin (spec_radius [5]), Fl.fin (spec_z_range [0]), sd,
            Fl.fin (spec_density (List.length [(5 : ℚ)]) 3 (spec_radius [5])),
            Fl.nan])
        ∧ compute_2D_properties (fun q => q) 3 (0, 0) [(3, 4)] =
            .ok [Fl.fin (spec_radius_2D (fun q => q) (0, 0) [(3, 4)]),
              Fl.fin (spec_density_2D (List.length [((3 : ℚ), (4 : ℚ))]) 3
                (spec_radius_2D (fun q => q) (0, 0) [(3, 4)]))]) :=
  ⟨by simp, by simp, by norm_num, ⟨5, by norm_num⟩, by norm_num, by simp,
    by norm_num [spec_radius_2D, maxQ],
    surface_properties_match_spec (fun q => q) 3 [0] [5] (0, 0) [(3, 4)]
      (by simp) (by simp) (by norm_num) ⟨5, by norm_num⟩ (by norm_num)
      (by simp) (by norm_num [spec_radius_2D, maxQ])⟩

/-- Number of grid edges produced by
`np.arange(lo, hi + bin_size + buf, bin_size)`:
`ceil((stop - start) / step)` values `lo, lo + bin_size, ...`. -/
def nEdges (bin_size buf lo hi : ℚ) : ℤ :=
  ⌈(hi + bin_size + buf - lo) / bin_size⌉

/-- `pd.cut(x, edges, right=False)` against that edge grid: coordinate
`x` lands in the half-open interval `[lo + i*bin_size, lo + (i+1)*bin_size)`,
i.e. bin index `i = floor((x - lo)/bin_size)`, provided that interval
exists (`0 <= i` and `i + 1 < nEdges`); otherwise the bin is NaN
(`none`). -/
def binO (bin_size buf lo hi x : ℚ) : Option ℤ :=
  let i : ℤ := ⌊(x - lo) / bin_size⌋
  if 0 ≤ i ∧ i + 1 < nEdges bin_size buf lo hi then some i else none

/-- The `(xbin, ybin)` cell key of a point, the grid bounds being the
coordinate-wise min/max over the whole cloud as in
`build_accumulation_features`. -/
def cellOf (bin_size buf : ℚ) (cloud : List (ℚ × ℚ × ℚ)) (p : ℚ × ℚ × ℚ) :
    Option (ℤ × ℤ) :=
  let xs := cloud.map (fun q => q.1)
  let ys := cloud.map (fun q => q.2.1)
  match binO bin_size buf (minQ xs) (maxQ xs) p.1,
      binO bin_size buf (minQ ys) (maxQ ys) p.2.1 with
  | some a, some b => some (a, b)
  | _, _ => none

/-- One row of the merged accumulation-feature dataframe: the point's
coordinates joined with its cell's aggregate count, z-std (sample
standard deviation, NaN for a single-point cell) and z-range. -/
structure AccRow where
  x : ℚ
  y : ℚ
  z : ℚ
  count : Fl
  std : Fl
  z_range : Fl
deriving DecidableEq

/-- The merged dataframe row of one point: its coordinates joined with
the aggregates of its `(xbin, ybin)` cell (NaN statistics if the point
has a NaN bin and therefore matches no aggregate row). -/
def acc_row (rt : ℚ → ℚ) (bin_size buf : ℚ)
    (point_cloud : List (ℚ × ℚ × ℚ)) (p : ℚ × ℚ × ℚ) : AccRow :=
  match cellOf bin_size buf point_cloud p with
  | none => ⟨p.1, p.2.1, p.2.2, Fl.nan, Fl.nan, Fl.nan⟩
  | some c =>
    let zs := (point_cloud.filter
      (fun q => decide (cellOf bin_size buf point_cloud q = some c))).map
        (fun q => q.2.2)
    ⟨p.1, p.2.1, p.2.2, Fl.fin (zs.length : ℚ),
      if zs.length ≤ 1 then Fl.nan else Fl.fin (rt (varSamp zs)),
      Fl.fin (maxQ zs - minQ zs)⟩

/-- Coordinates of a merged row are the point's own coordinates. -/
theorem acc_row_coords (rt : ℚ → ℚ) (bin_size buf : ℚ)
    (point_cloud : List (ℚ × ℚ × ℚ)) (p : ℚ × ℚ × ℚ) :
    (acc_row rt bin_size buf point_cloud p).x = p.1
    ∧ (acc_row rt bin_size buf point_cloud p).y = p.2.1
    ∧ (acc_row rt bin_size buf point_cloud p).z = p.2.2 := by
  unfold acc_row
  match cellOf bin_size buf point_cloud p with
  | none => exact ⟨rfl, rfl, rfl⟩
  | some c => exact ⟨rfl, rfl, rfl⟩

/-- `build_accumulation_features(point_cloud, bin_size=0.25, buf=1e-3)`:
bins the footprint, aggregates count / z-range / z-std per cell and
left-merges the aggregates back onto the points.  The merged row of each
point carries the statistics of the points sharing its cell; a point
with a NaN bin (impossible for positive `bin_size` and `buf`, see
`build_accumulation_features_partition`) would match no aggregate row
and carry NaN statistics.  `np.min` on an empty cloud raises. -/
def build_accumulation_features (rt : ℚ → ℚ) (bin_size buf : ℚ)
    (point_cloud : List (ℚ × ℚ × ℚ)) : Except PyErr (List AccRow) :=
  match point_cloud with
  | [] => .error .valueError
  | _ :: _ => .ok (point_cloud.map (acc_row rt bin_size buf point_cloud))

/-- The dataframe query predicate of `retrieve_accumulation_features`:
exact coordinate equality `x==@point_x & y==@point_y & z==@point_z`. -/
def acc_match (point : ℚ × ℚ × ℚ) (r : AccRow) : Bool :=
  decide (r.x = point.1 ∧ r.y = point.2.1 ∧ r.z = point.2.2)

/-- `retrieve_accumulation_features(point, features)`: query the merged
dataframe by exact coordinate equality and `assert` that exactly one row
matches; on success return `[count, z_range, std]` for that row. -/
def retrieve_accumulation_features (point : ℚ × ℚ × ℚ)
    (features : List AccRow) : Except PyErr (List Fl) :=
  match features.filter (acc_match point) with
  | [pf] => .ok [pf.count, pf.z_range, pf.std]
  | _ => .error .assertionError

/-- For positive bin size and epsilon and a coordinate inside the cloud's
bounds — in particular a coordinate equal to the maximum — the epsilon
expansion guarantees an existing bin interval. -/
theorem binO_isSome (bin_size buf lo hi x : ℚ) (hbs : 0 < bin_size)
    (hbuf : 0 < buf) (hlo : lo ≤ x) (hhi : x ≤ hi) :
    (binO bin_size buf lo hi x).isSome := by
  have h0 : (0 : ℤ) ≤ ⌊(x - lo) / bin_size⌋ :=
    Int.le_floor.mpr (by
      push_cast
      exact div_nonneg (sub_nonneg.mpr hlo) hbs.le)
  have h1 : ⌊(x - lo) / bin_size⌋ + 1 < nEdges bin_size buf lo hi := by
    rw [nEdges]
    apply Int.lt_ceil.mpr
    push_cast
    have hfl : ((⌊(x - lo) / bin_size⌋ : ℤ) : ℚ) ≤ (x - lo) / bin_size :=
      Int.floor_le _
    have hmono : (x - lo) / bin_size ≤ (hi - lo) / bin_size :=
      (div_le_div_iff_of_pos_right hbs).mpr (by linarith)
    have hsplit : (hi + bin_size + buf - lo) / bin_size =
        (hi - lo) / bin_size + 1 + buf / bin_size := by
      field_simp
      ring
    have hbufpos : 0 < buf / bin_size := div_pos hbuf hbs
    linarith
  simp [binO, h0, h1]

/-- A point of the cloud always receives a cell key under positive bin
size and epsilon. -/
theorem cellOf_isSome (bin_size buf : ℚ) (cloud : List (ℚ × ℚ × ℚ))
    (p : ℚ × ℚ × ℚ) (hbs : 0 < bin_size) (hbuf : 0 < buf) (hp : p ∈ cloud) :
    (cellOf bin_size buf cloud p).isSome := by
  have hx : (binO bin_size buf (minQ (cloud.map (fun q => q.1)))
      (maxQ (cloud.map (fun q => q.1))) p.1).isSome :=
    binO_isSome _ _ _ _ _ hbs hbuf
      (minQ_le_of_mem (List.mem_map_of_mem _ hp))
      (le_maxQ_of_mem (List.mem_map_of_mem _ hp))
  have hy : (binO bin_size buf (minQ (cloud.map (fun q => q.2.1)))
      (maxQ (cloud.map (fun q => q.2.1))) p.2.1).isSome :=
    binO_isSome _ _ _ _ _ hbs hbuf
      (minQ_le_of_mem (List.mem_map_of_mem _ hp))
      (le_maxQ_of_mem (List.mem_map_of_mem _ hp))
  obtain ⟨a, ha⟩ := Option.isSome_iff_exists.mp hx
  obtain ⟨b, hb⟩ := Option.isSome_iff_exists.mp hy
  unfold cellOf
  simp only [ha, hb]
  rfl

/-- C3: for every positive bin size and epsilon and non-empty cloud,
every input point receives exactly one `(xbin, ybin)` cell (including
points lying exactly at the maximum x or y coordinate, thanks to the
epsilon expansion of the grid's upper bound), the merged output has
exactly one row — hence one `(count, z_range, z_std)` triple — per input
point, and the per-cell counts sum to the total point count. -/
theorem build_accumulation_features_partition (rt : ℚ → ℚ)
    (bin_size buf : ℚ) (cloud : List (ℚ × ℚ × ℚ))
    (hbs : 0 < bin_size) (hbuf : 0 < buf) (hne : cloud ≠ []) :
    (∀ p ∈ cloud, (cellOf bin_size buf cloud p).isSome)
    ∧ (∃ rows, build_accumulation_features rt bin_size buf cloud = .ok rows
        ∧ rows.length = cloud.length)
    ∧ (∑ c in (↑(cloud.map (cellOf bin_size buf cloud)) :
          Multiset (Option (ℤ × ℤ))).toFinset,
        (↑(cloud.map (cellOf bin_size buf cloud)) :
          Multiset (Option (ℤ × ℤ))).count c) = cloud.length := by
  refine ⟨fun p hp => cellOf_isSome bin_size buf cloud p hbs hbuf hp, ?_, ?_⟩
  · match cloud with
    | q :: qs => exact ⟨_, rfl, by simp [List.length_map]⟩
  · have h := Multiset.toFinset_sum_count_eq
      (↑(cloud.map (cellOf bin_size buf cloud)) : Multiset (Option (ℤ × ℤ)))
    rw [Multiset.coe_card, List.length_map] at h
    exact h

/-- Witness: C3 at a concrete two-point cloud with the source's default
bin size 0.25 and epsilon 1e-3, one point at each footprint corner. -/
theorem build_accumulation_features_partition_witness :
    (0 : ℚ) < 1/4 ∧ (0 : ℚ) < 1/1000 ∧
      ([((0 : ℚ), (0 : ℚ), (1 : ℚ)), ((1 : ℚ), (2 : ℚ), (3 : ℚ))] ≠ []) ∧
      ((∀ p ∈ [((0 : ℚ), (0 : ℚ), (1 : ℚ)), ((1 : ℚ), (2 : ℚ), (3 : ℚ))],
          (cellOf (1/4) (1/1000)
            [((0 : ℚ), (0 : ℚ), (1 : ℚ)), ((1 : ℚ), (2 : ℚ), (3 : ℚ))] p).isSome)
        ∧ (∃ rows, build_accumulation_features (fun q => q) (1/4) (1/1000)
            [((0 : ℚ), (0 : ℚ), (1 : ℚ)), ((1 : ℚ), (2 : ℚ), (3 : ℚ))] = .ok rows
            ∧ rows.length =
              (List.length [((0 : ℚ), (0 : ℚ), (1 : ℚ)), ((1 : ℚ), (2 : ℚ), (3 : ℚ))]))
        ∧ (∑ c in (↑([((0 : ℚ), (0 : ℚ), (1 : ℚ)), ((1 : ℚ), (2 : ℚ), (3 : ℚ))].map
              (cellOf (1/4) (1/1000)
                [((0 : ℚ), (0 : ℚ), (1 : ℚ)), ((1 : ℚ), (2 : ℚ), (3 : ℚ))])) :
              Multiset (Option (ℤ × ℤ))).toFinset,
            (↑(([((0 : ℚ), (0 : ℚ), (1 : ℚ)), ((1 : ℚ), (2 : ℚ), (3 : ℚ))]).map
              (cellOf (1/4) (1/1000)
                [((0 : ℚ), (0 : ℚ), (1 : ℚ)), ((1 : ℚ), (2 : ℚ), (3 : ℚ))])) :
              Multiset (Option (ℤ × ℤ))).count c) =
          (List.length [((0 : ℚ), (0 : ℚ), (1 : ℚ)), ((1 : ℚ), (2 : ℚ), (3 : ℚ))])) :=
  ⟨by norm_num, by norm_num, by simp,
    build_accumulation_features_partition (fun q => q) (1/4) (1/1000)
      [(0, 0, 1), (1, 2, 3)] (by norm_num) (by norm_num) (by simp)⟩

/-- Squared Euclidean distance of 3D points (exact; the k-d tree ranks
neighbors by it, and `math.sqrt` of it is the reported distance). -/
def sqDist (p q : ℚ × ℚ × ℚ) : ℚ :=
  (p.1 - q.1) ^ 2 + (p.2.1 - q.2.1) ^ 2 + (p.2.2 - q.2.2) ^ 2

/-- Insertion into a list of (squared distance, index) pairs ordered by
distance with ties broken by the stable original index order. -/
def insertNN (x : ℚ × ℕ) : List (ℚ × ℕ) → List (ℚ × ℕ)
  | [] => [x]
  | y :: ys =>
    if x.1 < y.1 ∨ (x.1 = y.1 ∧ x.2 < y.2) then x :: y :: ys
    else y :: insertNN x ys

/-- Sort (squared distance, index) pairs ascending. -/
def sortNN : List (ℚ × ℕ) → List (ℚ × ℕ)
  | [] => []
  | x :: xs => insertNN x (sortNN xs)

/-- `KDTree.query(point, k)` index part: the `k` cloud indices nearest
to the query point in ascending distance order. -/
def kNNindices (tree : List (ℚ × ℚ × ℚ)) (point : ℚ × ℚ × ℚ) (k : ℕ) :
    List ℕ :=
  ((sortNN ((List.range tree.length).map
    (fun i => (sqDist point (tree.getD i (0, 0, 0)), i)))).map
      (fun di => di.2)).take k

/-- Result of `build_neighborhood`: the squeezed distance and index
arrays returned by the k-d tree query. -/
structure Neighborhood where
  distance : List ℚ
  indices : List ℕ
deriving DecidableEq

/-- `build_neighborhood(point, nb_neighbors, kd_tree)`: query the tree
for the `nb_neighbors` nearest points and return their distances
(`math.sqrt` parameter `rt` of the exact squared distances) and
indices. -/
def build_neighborhood (rt : ℚ → ℚ) (point : ℚ × ℚ × ℚ) (nb_neighbors : ℕ)
    (kd_tree : List (ℚ × ℚ × ℚ)) : Neighborhood :=
  let ind := kNNindices kd_tree point nb_neighbors
  { distance := ind.map (fun i => rt (sqDist point (kd_tree.getD i (0, 0, 0)))),
    indices := ind }

/-- Whether an `Except` computation succeeded. -/
def exOk {α : Type} : Except PyErr α → Bool
  | .ok _ => true
  | .error _ => false

/-- `KDTree.query_radius(point, r)`: all cloud indices within distance
`r` of the query point (compared on squares, exactly). -/
def query_radius (tree : List (ℚ × ℚ × ℚ)) (point : ℚ × ℚ × ℚ) (r : ℚ) :
    List ℕ :=
  (List.range tree.length).filter
    (fun i => decide (sqDist point (tree.getD i (0, 0, 0)) ≤ r ^ 2))

/-- Modelled from the spec: the two-mode neighborhood resolver
(`resolve(point, index, neighbor_count=None, radius=None)` in the spec's
NeighborhoodResolver contract, `request_tree` in the repository's test
suite) is not among the sources under `src/` — only `build_neighborhood`,
its k-nearest half, is.  Per the spec: exactly one of
`neighbor_count`/`radius` must be set; a violates-precondition error
(`ValueError`) is raised if both or neither are set; the count mode
returns distances and indices from the k-nearest query, the radius mode
returns no distance array and the indices within the ball, both against
the same index structure. -/
def request_tree (point : ℚ × ℚ × ℚ) (tree : List (ℚ × ℚ × ℚ)) (rt : ℚ → ℚ)
    (nb_neighbors : Option ℕ) (radius : Option ℚ) :
    Except PyErr (Option (List ℚ) × List ℕ) :=
  match nb_neighbors, radius with
  | none, none => .error .valueError
  | some _, some _ => .error .valueError
  | some k, none =>
    let nb := build_neighborhood rt point k tree
    .ok (some nb.distance, nb.indices)
  | none, some r => .ok (none, query_radius tree point r)

/-- C5: neighborhood resolution demands exactly one of the two modes:
with both or neither of `neighbor_count`/`radius` set it fails with the
precondition-violation error before producing any neighborhood, and with
exactly one set it succeeds — both modes served by the same tree. -/
theorem request_tree_mode_validation (point : ℚ × ℚ × ℚ)
    (tree : List (ℚ × ℚ × ℚ)) (rt : ℚ → ℚ) :
    (∀ k r, request_tree point tree rt (some k) (some r) =
      .error .valueError)
    ∧ request_tree point tree rt none none = .error .valueError
    ∧ (∀ k, exOk (request_tree point tree rt (some k) none) = true)
    ∧ (∀ r, exOk (request_tree point tree rt none (some r)) = true) := by
  refine ⟨fun k r => rfl, rfl, fun k => rfl, fun r => rfl⟩

/-- `point[:3]` as a coordinate triple (`numpy` rows are at least three
wide, the source asserts `shape[1] == 3` on the coordinate block). -/
def xyzOf (point : List ℚ) : ℚ × ℚ × ℚ :=
  (point.getD 0 0, point.getD 1 0, point.getD 2 0)

/-- Sequential effectful map: the generator loop of `generate_features`
materialised; the first raising point aborts the whole iteration. -/
def mapE {α β : Type} (f : α → Except PyErr β) : List α → Except PyErr (List β)
  | [] => .ok []
  | x :: xs =>
    match f x with
    | .error e => .error e
    | .ok y =>
      match mapE f xs with
      | .error e => .error e
      | .ok ys => .ok (y :: ys)

/-- Body of the `for point in sample` loop of `generate_features`: the
row yielded for one point, evaluated left to right exactly as in the
source yield expression — `features3d(lbda_3D) + [z] +
compute_3D_properties(...) + compute_3D_features(lbda_3D) +
compute_2D_properties(...) + compute_2D_features(lbda_2D) +
retrieve_accumulation_features(...) + (rgb/255).tolist()`. -/
def generate_features_point (rt lg cb : ℚ → ℚ) (pi : ℚ)
    (pca3 : List (ℚ × ℚ × ℚ) → ℚ × ℚ × ℚ) (pca2 : List (ℚ × ℚ) → ℚ × ℚ)
    (xyz : List (ℚ × ℚ × ℚ)) (nb_neighbors : ℕ) (acc_features : List AccRow)
    (point : List ℚ) : Except PyErr (List Fl) :=
  let xyz_data := xyzOf point
  let rgb_data := point.drop 3
  let neighborhood := build_neighborhood rt xyz_data nb_neighbors xyz
  let neighbors := neighborhood.indices.map (fun i => xyz.getD i (0, 0, 0))
  let lbda_3D := pca3 neighbors
  let lbda_2D := pca2 (neighbors.map (fun q => (q.1, q.2.1)))
  match compute_3D_properties rt pi (neighbors.map (fun q => q.2.2))
      neighborhood.distance with
  | .error e => .error e
  | .ok props3 =>
    match compute_3D_features lg cb lbda_3D with
    | .error e => .error e
    | .ok feats3 =>
      match compute_2D_properties rt pi (xyz_data.1, xyz_data.2.1)
          (neighbors.map (fun q => (q.1, q.2.1))) with
      | .error e => .error e
      | .ok props2 =>
        let feats2 := compute_2D_features lbda_2D
        match retrieve_accumulation_features xyz_data acc_features with
        | .error e => .error e
        | .ok accf =>
          .ok ((features3d lbda_3D).map Fl.fin ++ [Fl.fin xyz_data.2.2]
            ++ props3 ++ feats3 ++ props2 ++ feats2 ++ accf
            ++ rgb_data.map (fun v => Fl.fin (v / 255)))

/-- `generate_features(point_cloud, nb_neighbors, nb_points=None, ...)`:
accumulation features over the full cloud (default bin size 0.25,
epsilon 1e-3), then one feature row per sampled point.  With
`nb_points=None` the sample is `range(len(point_cloud))`; otherwise the
sample is the draw `numpy.random.choice` takes from the global
(unseeded) random state, which enters the model as the parameter
`rand`. -/
def generate_features (rt lg cb : ℚ → ℚ) (pi : ℚ)
    (pca3 : List (ℚ × ℚ × ℚ) → ℚ × ℚ × ℚ) (pca2 : List (ℚ × ℚ) → ℚ × ℚ)
    (rand : List ℕ) (point_cloud : List (List ℚ)) (nb_neighbors : ℕ)
    (nb_points : Option ℕ) : Except PyErr (List (List Fl)) :=
  let xyz := point_cloud.map xyzOf
  match build_accumulation_features rt (1/4) (1/1000) xyz with
  | .error e => .error e
  | .ok acc_features =>
    let sample_mask :=
      match nb_points with
      | none => List.range point_cloud.length
      | some _ => rand
    mapE (fun idx => generate_features_point rt lg cb pi pca3 pca2 xyz
      nb_neighbors acc_features (point_cloud.getD idx [])) sample_mask

/-- C6 (amended part): with `nb_points=None` — no subsampling — the
output of `generate_features` does not depend on the random state at
all: the pipeline consults no randomness outside the optional
subsampling step, so two runs on the same input and configuration agree
for every pair of random states. -/
theorem generate_features_deterministic_without_sampling
    (rt lg cb : ℚ → ℚ) (pi : ℚ)
    (pca3 : List (ℚ × ℚ × ℚ) → ℚ × ℚ × ℚ) (pca2 : List (ℚ × ℚ) → ℚ × ℚ)
    (rand1 rand2 : List ℕ) (point_cloud : List (List ℚ))
    (nb_neighbors : ℕ) :
    generate_features rt lg cb pi pca3 pca2 rand1 point_cloud nb_neighbors none
      = generate_features rt lg cb pi pca3 pca2 rand2 point_cloud
          nb_neighbors none := rfl

/-- Identity stand-in for the square-root / log / cube-root parameters in
concrete instantiations (the theorems above hold for any parameter). -/
def idQ : ℚ → ℚ := fun q => q

/-- Constant 3D-PCA stand-in for concrete instantiations. -/
def pcaConst3 : List (ℚ × ℚ × ℚ) → ℚ × ℚ × ℚ := fun _ => (1, 1/2, 1/4)

/-- Constant 2D-PCA stand-in for concrete instantiations. -/
def pcaConst2 : List (ℚ × ℚ) → ℚ × ℚ := fun _ => (1, 1/2)

/-- Concrete two-point cloud with one extra channel column. -/
def cloudA : List (List ℚ) := [[7, 8, 9, 510], [10, 11, 12, 255]]

/-- Coordinate block of `cloudA`. -/
def xyzA : List (ℚ × ℚ × ℚ) := [(7, 8, 9), (10, 11, 12)]

/-- Accumulation rows of `cloudA` (each point alone in its cell). -/
def accA : List AccRow :=
  [⟨7, 8, 9, Fl.fin 1, Fl.nan, Fl.fin 0⟩,
   ⟨10, 11, 12, Fl.fin 1, Fl.nan, Fl.fin 0⟩]

/-- Feature row of the first `cloudA` point. -/
def rowA0 : List Fl :=
  [Fl.fin (1/2), Fl.fin 2, Fl.fin 9,
   Fl.fin 27, Fl.fin 3, Fl.fin (9/4), Fl.fin (1/26244), Fl.nan,
   Fl.fin (1/7), Fl.fin (1/2), Fl.fin (1/4), Fl.fin (1/4), Fl.fin (8/343),
   Fl.fin (3/4), Fl.fin (-(3/7)), Fl.fin (7/4),
   Fl.fin 18, Fl.fin (1/324), Fl.fin (3/2), Fl.fin 2,
   Fl.fin 1, Fl.fin 0, Fl.nan, Fl.fin 2]

/-- Feature row of the second `cloudA` point. -/
def rowA1 : List Fl :=
  [Fl.fin (1/2), Fl.fin 2, Fl.fin 12,
   Fl.fin 27, Fl.fin 3, Fl.fin (9/4), Fl.fin (1/26244), Fl.nan,
   Fl.fin (1/7), Fl.fin (1/2), Fl.fin (1/4), Fl.fin (1/4), Fl.fin (8/343),
   Fl.fin (3/4), Fl.fin (-(3/7)), Fl.fin (7/4),
   Fl.fin 18, Fl.fin (1/324), Fl.fin (3/2), Fl.fin 2,
   Fl.fin 1, Fl.fin 0, Fl.nan, Fl.fin 1]

/-- Evaluation: accumulation features of the concrete cloud. -/
theorem build_accumulation_cloudA :
    build_accumulation_features idQ (1/4) (1/1000) xyzA = .ok accA := by
  have hc1 : cellOf (1/4) (1/1000) [(7, 8, 9), (10, 11, 12)] (7, 8, 9) =
      some (0, 0) := by
    norm_num [cellOf, binO, nEdges, minQ, maxQ, min_def, max_def,
      Int.lt_ceil, Int.ceil_le]
  have hc2 : cellOf (1/4) (1/1000) [(7, 8, 9), (10, 11, 12)] (10, 11, 12) =
      some (12, 12) := by
    norm_num [cellOf, binO, nEdges, minQ, maxQ, min_def, max_def,
      Int.lt_ceil, Int.ceil_le]
  norm_num [build_accumulation_features, acc_row, xyzA, accA, hc1, hc2,
    List.filter, minQ, maxQ, min_def, max_def, -Prod.mk_zero_zero]

/-- Evaluation: feature row of the first concrete point. -/
theorem gfp_cloudA_0 :
    generate_features_point idQ idQ idQ 3 pcaConst3 pcaConst2 xyzA 2 accA
      [7, 8, 9, 510] = .ok rowA0 := by
  have hxyzp : xyzOf [7, 8, 9, 510] = (7, 8, 9) := by norm_num [xyzOf]
  have hnb : build_neighborhood idQ (7, 8, 9) 2 xyzA =
      ⟨[0, 27], [0, 1]⟩ := by
    norm_num [build_neighborhood, kNNindices, sortNN, insertNN, sqDist,
      idQ, xyzA]
  simp only [generate_features_point, hxyzp, hnb]
  norm_num [xyzA, accA, rowA0, retrieve_accumulation_features, acc_match,
    List.filter,
    compute_3D_properties, compute_3D_features, compute_2D_properties,
    compute_2D_features, features3d, normalize_over_1, sumQ, minQ, maxQ,
    meanQ, varPop, min_def, max_def, Fl.fdiv, Fl.fadd, Fl.fsub, Fl.fneg,
    Fl.fmul, Fl.fsum, Fl.flog, Fl.fcbrt, idQ, pcaConst3, pcaConst2]

/-- Evaluation: feature row of the second concrete point. -/
theorem gfp_cloudA_1 :
    generate_features_point idQ idQ idQ 3 pcaConst3 pcaConst2 xyzA 2 accA
      [10, 11, 12, 255] = .ok rowA1 := by
  have hxyzp : xyzOf [10, 11, 12, 255] = (10, 11, 12) := by norm_num [xyzOf]
  have hnb : build_neighborhood idQ (10, 11, 12) 2 xyzA =
      ⟨[0, 27], [1, 0]⟩ := by
    norm_num [build_neighborhood, kNNindices, sortNN, insertNN, sqDist,
      idQ, xyzA]
  simp only [generate_features_point, hxyzp, hnb]
  norm_num [xyzA, accA, rowA1, retrieve_accumulation_features, acc_match,
    List.filter,
    compute_3D_properties, compute_3D_features, compute_2D_properties,
    compute_2D_features, features3d, normalize_over_1, sumQ, minQ, maxQ,
    meanQ, varPop, min_def, max_def, Fl.fdiv, Fl.fadd, Fl.fsub, Fl.fneg,
    Fl.fmul, Fl.fsum, Fl.flog, Fl.fcbrt, idQ, pcaConst3, pcaConst2]

/-- Evaluation: the full pipeline on the concrete cloud, no subsampling. -/
theorem gf_cloudA_none (rand : List ℕ) :
    generate_features idQ idQ idQ 3 pcaConst3 pcaConst2 rand cloudA 2 none =
      .ok [rowA0, rowA1] := by
  have hxyz : cloudA.map xyzOf = xyzA := by
    norm_num [cloudA, xyzA, xyzOf]
  simp only [generate_features, hxyz, build_accumulation_cloudA]
  norm_num [cloudA, mapE, gfp_cloudA_0, gfp_cloudA_1,
    List.range_succ, List.range_zero]

/-- C6 counterexample: with subsampling requested (`nb_points=1`), the
output is a function of the draw the unseeded global
`numpy.random.choice` happens to produce — two runs whose global random
states yield draws `[0]` and `[1]` return different outputs, and
`generate_features` offers no seed parameter to pin the draw down.  So
"running the pipeline twice yields identical output" fails whenever the
optional subsampling is used. -/
theorem generate_features_sampling_not_reproducible :
    generate_features idQ idQ idQ 3 pcaConst3 pcaConst2 [0] cloudA 2
        (some 1) = .ok [rowA0]
    ∧ generate_features idQ idQ idQ 3 pcaConst3 pcaConst2 [1] cloudA 2
        (some 1) = .ok [rowA1]
    ∧ (Except.ok [rowA0] : Except PyErr (List (List Fl))) ≠ .ok [rowA1] := by
  have hxyz : cloudA.map xyzOf = xyzA := by
    norm_num [cloudA, xyzA, xyzOf]
  refine ⟨?_, ?_, ?_⟩
  · simp only [generate_features, hxyz, build_accumulation_cloudA]
    norm_num [cloudA, mapE, gfp_cloudA_0]
  · simp only [generate_features, hxyz, build_accumulation_cloudA]
    norm_num [cloudA, mapE, gfp_cloudA_1]
  · norm_num [rowA0, rowA1]

/-- C4 counterexample: the first output row of the concrete run does not
begin with the point's `x, y, z` coordinates: the point is `(7, 8, 9)`
(with extra channel value 510), yet the row begins with
`[alpha, beta, z] = [1/2, 2, 9]` — the source yields
`features3d(...) + [z] + ...`, emitting neither `x` nor `y` and placing
the (scaled) extra channels last, not right after the coordinates. -/
theorem generate_features_row_not_xyz_first :
    generate_features idQ idQ idQ 3 pcaConst3 pcaConst2 [] cloudA 2 none =
      .ok [rowA0, rowA1]
    ∧ xyzOf (cloudA.getD 0 []) = (7, 8, 9)
    ∧ rowA0.take 3 = [Fl.fin (1/2), Fl.fin 2, Fl.fin 9]
    ∧ [Fl.fin (1/2), Fl.fin 2, Fl.fin 9] ≠ [Fl.fin 7, Fl.fin 8, Fl.fin 9] := by
  refine ⟨gf_cloudA_none [], by norm_num [cloudA, xyzOf], by norm_num [rowA0], ?_⟩
  norm_num

/-- C7 counterexample: the extra channel value 510 of the first concrete
point is not carried through unchanged: the emitted row ends with
`510/255 = 2`, and the value 510 appears nowhere in the row — the source
emits `(rgb_data/255).tolist()` at the end of the row. -/
theorem generate_features_extras_not_unchanged :
    generate_features idQ idQ idQ 3 pcaConst3 pcaConst2 [] cloudA 2 none =
      .ok [rowA0, rowA1]
    ∧ (cloudA.getD 0 []).drop 3 = [510]
    ∧ rowA0.drop 23 = [Fl.fin 2]
    ∧ Fl.fin 2 ≠ Fl.fin 510
    ∧ ¬ Fl.fin (510 : ℚ) ∈ rowA0 := by
  refine ⟨gf_cloudA_none [], by norm_num [cloudA], by norm_num [rowA0], ?_, ?_⟩
  · norm_num
  · intro hmem
    norm_num [rowA0] at hmem
    exact Fl.noConfusion hmem

/-- Inversion of a successful `mapE` run: lengths agree and every
position is a successful application. -/
theorem mapE_ok_get {α β : Type} (f : α → Except PyErr β) :
    ∀ (l : List α) (ys : List β), mapE f l = .ok ys →
      ys.length = l.length ∧
        ∀ (i : ℕ) (x : α), l[i]? = some x →
          ∃ y, ys[i]? = some y ∧ f x = .ok y := by
  intro l
  induction l with
  | nil =>
    intro ys h
    simp only [mapE] at h
    injection h with h2
    subst h2
    refine ⟨rfl, fun i x hx => ?_⟩
    simp at hx
  | cons a l ih =>
    intro ys h
    simp only [mapE] at h
    cases hfa : f a with
    | error e => rw [hfa] at h; exact absurd h (by simp)
    | ok y =>
      rw [hfa] at h
      cases hrec : mapE f l with
      | error e => rw [hrec] at h; exact absurd h (by simp)
      | ok ys2 =>
        rw [hrec] at h
        injection h with h2
        subst h2
        obtain ⟨hlen, hget⟩ := ih ys2 hrec
        refine ⟨by simp [hlen], fun i x hx => ?_⟩
        cases i with
        | zero =>
          simp only [List.getElem?_cons_zero, Option.some.injEq] at hx
          subst hx
          exact ⟨y, by simp, hfa⟩
        | succ n =>
          simp only [List.getElem?_cons_succ] at hx
          obtain ⟨y2, hy2, hfy2⟩ := hget n x hx
          exact ⟨y2, by simpa using hy2, hfy2⟩

/-- A successful `compute_3D_properties` returns five components. -/
theorem compute_3D_properties_ok_length (rt : ℚ → ℚ) (pi : ℚ)
    (z d : List ℚ) (l : List Fl)
    (h : compute_3D_properties rt pi z d = .ok l) : l.length = 5 := by
  match d, z with
  | [], _ => exact absurd h (by simp [compute_3D_properties])
  | _ :: _, [] => exact absurd h (by simp [compute_3D_properties])
  | _ :: _, _ :: _ =>
    simp only [compute_3D_properties] at h
    injection h with h2
    subst h2
    rfl

/-- A successful `compute_3D_features` returns eight descriptors. -/
theorem compute_3D_features_ok_length (lg cb : ℚ → ℚ) (lbda : ℚ × ℚ × ℚ)
    (l : List Fl) (h : compute_3D_features lg cb lbda = .ok l) :
    l.length = 8 := by
  simp only [compute_3D_features, normalize_over_1, List.map] at h
  cases h0 : Fl.flog lg
      (Fl.fdiv (Fl.fin lbda.1) (Fl.fin (sumQ [lbda.1, lbda.2.1, lbda.2.2]))) with
  | error e => rw [h0] at h; exact absurd h (by simp)
  | ok g0 =>
    rw [h0] at h
    cases h1 : Fl.flog lg
        (Fl.fdiv (Fl.fin lbda.2.1) (Fl.fin (sumQ [lbda.1, lbda.2.1, lbda.2.2]))) with
    | error e => rw [h1] at h; exact absurd h (by simp)
    | ok g1 =>
      rw [h1] at h
      cases h2 : Fl.flog lg
          (Fl.fdiv (Fl.fin lbda.2.2) (Fl.fin (sumQ [lbda.1, lbda.2.1, lbda.2.2]))) with
      | error e => rw [h2] at h; exact absurd h (by simp)
      | ok g2 =>
        rw [h2] at h
        injection h with h3
        subst h3
        rfl

/-- A successful `compute_2D_properties` returns two components. -/
theorem compute_2D_properties_ok_length (rt : ℚ → ℚ) (pi : ℚ)
    (point : ℚ × ℚ) (neighbors : List (ℚ × ℚ)) (l : List Fl)
    (h : compute_2D_properties rt pi point neighbors = .ok l) :
    l.length = 2 := by
  match neighbors with
  | [] => exact absurd h (by simp [compute_2D_properties])
  | _ :: _ =>
    simp only [compute_2D_properties] at h
    split at h
    · exact absurd h (by simp)
    · injection h with h2
      subst h2
      rfl

/-- A successful `retrieve_accumulation_features` returns three values. -/
theorem retrieve_ok_length (point : ℚ × ℚ × ℚ) (feats : List AccRow)
    (l : List Fl) (h : retrieve_accumulation_features point feats = .ok l) :
    l.length = 3 := by
  simp only [retrieve_accumulation_features] at h
  split at h
  · injection h with h2; subst h2; rfl
  · exact absurd h (by simp)

/-- Inversion of a successful per-point computation: the row is the
source's fixed concatenation
`[alpha, beta] ++ [z] ++ 3D-properties ++ 3D-features ++ 2D-properties
++ 2D-features ++ accumulation ++ extras/255`. -/
theorem generate_features_point_ok_shape (rt lg cb : ℚ → ℚ) (pi : ℚ)
    (pca3 : List (ℚ × ℚ × ℚ) → ℚ × ℚ × ℚ) (pca2 : List (ℚ × ℚ) → ℚ × ℚ)
    (xyz : List (ℚ × ℚ × ℚ)) (k : ℕ) (acc : List AccRow) (point : List ℚ)
    (row : List Fl)
    (h : generate_features_point rt lg cb pi pca3 pca2 xyz k acc point =
      .ok row) :
    ∃ ab props3 feats3 props2 feats2 accf,
      row = ab ++ [Fl.fin (point.getD 2 0)] ++ props3 ++ feats3 ++ props2
        ++ feats2 ++ accf ++ (point.drop 3).map (fun v => Fl.fin (v / 255))
      ∧ ab.length = 2 ∧ props3.length = 5 ∧ feats3.length = 8
      ∧ props2.length = 2 ∧ feats2.length = 2 ∧ accf.length = 3
      ∧ exOk (retrieve_accumulation_features (xyzOf point) acc) = true := by
  simp only [generate_features_point] at h
  cases h3 : compute_3D_properties rt pi
      (((build_neighborhood rt (xyzOf point) k xyz).indices.map
        (fun i => xyz.getD i (0, 0, 0))).map (fun q => q.2.2))
      ((build_neighborhood rt (xyzOf point) k xyz).distance) with
  | error e => rw [h3] at h; exact absurd h (by simp)
  | ok props3 =>
    rw [h3] at h
    cases hf3 : compute_3D_features lg cb (pca3
        ((build_neighborhood rt (xyzOf point) k xyz).indices.map
          (fun i => xyz.getD i (0, 0, 0)))) with
    | error e => rw [hf3] at h; exact absurd h (by simp)
    | ok feats3 =>
      rw [hf3] at h
      cases h2 : compute_2D_properties rt pi
          ((xyzOf point).1, (xyzOf point).2.1)
          (((build_neighborhood rt (xyzOf point) k xyz).indices.map
            (fun i => xyz.getD i (0, 0, 0))).map (fun q => (q.1, q.2.1))) with
      | error e => rw [h2] at h; exact absurd h (by simp)
      | ok props2 =>
        rw [h2] at h
        cases hr : retrieve_accumulation_features (xyzOf point) acc with
        | error e => rw [hr] at h; exact absurd h (by simp)
        | ok accf =>
          rw [hr] at h
          injection h with h4
          refine ⟨(features3d (pca3
              ((build_neighborhood rt (xyzOf point) k xyz).indices.map
                (fun i => xyz.getD i (0, 0, 0))))).map Fl.fin,
            props3, feats3,
            props2,
            compute_2D_features (pca2
              (((build_neighborhood rt (xyzOf point) k xyz).indices.map
                (fun i => xyz.getD i (0, 0, 0))).map (fun q => (q.1, q.2.1)))),
            accf, ?_,
            by simp [features3d], compute_3D_properties_ok_length _ _ _ _ _ h3,
            compute_3D_features_ok_length _ _ _ _ hf3,
            compute_2D_properties_ok_length _ _ _ _ _ h2,
            by simp [compute_2D_features], retrieve_ok_length _ _ _ hr,
            by simp [exOk, hr]⟩
          rw [← h4]
          simp [xyzOf]

/-- Inversion of a successful full-cloud run (no subsampling): the
accumulation table exists, one row per input point, and every row has
the source's fixed layout with a successful accumulation lookup. -/
theorem generate_features_rows_shape (rt lg cb : ℚ → ℚ) (pi : ℚ)
    (pca3 : List (ℚ × ℚ × ℚ) → ℚ × ℚ × ℚ) (pca2 : List (ℚ × ℚ) → ℚ × ℚ)
    (rand : List ℕ) (cloud : List (List ℚ)) (k : ℕ) (rows : List (List Fl))
    (hok : generate_features rt lg cb pi pca3 pca2 rand cloud k none =
      .ok rows) :
    ∃ acc, build_accumulation_features rt (1/4) (1/1000) (cloud.map xyzOf) =
        .ok acc
      ∧ rows.length = cloud.length
      ∧ ∀ (i : ℕ) (point : List ℚ), cloud[i]? = some point →
          ∃ ab props3 feats3 props2 feats2 accf,
            rows[i]? = some (ab ++ [Fl.fin (point.getD 2 0)] ++ props3
              ++ feats3 ++ props2 ++ feats2 ++ accf
              ++ (point.drop 3).map (fun v => Fl.fin (v / 255)))
            ∧ ab.length = 2 ∧ props3.length = 5 ∧ feats3.length = 8
            ∧ props2.length = 2 ∧ feats2.length = 2 ∧ accf.length = 3
            ∧ exOk (retrieve_accumulation_features (xyzOf point) acc) =
                true := by
  simp only [generate_features] at hok
  cases hacc : build_accumulation_features rt (1/4) (1/1000)
      (cloud.map xyzOf) with
  | error e => rw [hacc] at hok; exact absurd hok (by simp)
  | ok acc =>
    rw [hacc] at hok
    obtain ⟨hlen, hget⟩ := mapE_ok_get _ _ _ hok
    refine ⟨acc, rfl, by simpa using hlen, fun i point hpt => ?_⟩
    have hi : i < cloud.length := by
      by_contra hge
      rw [List.getElem?_eq_none (Nat.le_of_not_lt hge)] at hpt
      exact Option.noConfusion hpt
    have hrange : (List.range cloud.length)[i]? = some i := by
      simp [List.getElem?_range, hi]
    obtain ⟨row, hrow, happ⟩ := hget i i hrange
    have hgetd : cloud.getD i [] = point := by
      rw [List.getD_eq_getElem?_getD, hpt]
      rfl
    rw [hgetd] at happ
    obtain ⟨ab, p3, f3, p2, f2, accf, hshape, hl1, hl2, hl3, hl4, hl5, hl6,
      hret⟩ := generate_features_point_ok_shape _ _ _ _ _ _ _ _ _ _ _ happ
    exact ⟨ab, p3, f3, p2, f2, accf, by rw [hrow, hshape], hl1, hl2, hl3,
      hl4, hl5, hl6, hret⟩

/-- C4 (amended): the pipeline's output has one row per input point, in
input order, and each row has the fixed layout
`[alpha, beta, z, five 3D surface properties, eight 3D shape
descriptors, two 2D properties, two 2D features, three accumulation
features, extra channels divided by 255]` — the row does NOT begin with
`x, y, z` followed by the untouched extras as claimed: only the z
coordinate is emitted (at position 2), x and y never appear, and the
extra channels come last, scaled by 1/255 (see
`generate_features_row_not_xyz_first`).  The layout is a fixed function
of the input, identical across runs. -/
theorem generate_features_row_layout (rt lg cb : ℚ → ℚ) (pi : ℚ)
    (pca3 : List (ℚ × ℚ × ℚ) → ℚ × ℚ × ℚ) (pca2 : List (ℚ × ℚ) → ℚ × ℚ)
    (rand : List ℕ) (cloud : List (List ℚ)) (k : ℕ) (rows : List (List Fl))
    (hok : generate_features rt lg cb pi pca3 pca2 rand cloud k none =
      .ok rows) :
    rows.length = cloud.length
    ∧ ∀ (i : ℕ) (point : List ℚ), cloud[i]? = some point →
        ∃ ab props3 feats3 props2 feats2 accf,
          rows[i]? = some (ab ++ [Fl.fin (point.getD 2 0)] ++ props3
            ++ feats3 ++ props2 ++ feats2 ++ accf
            ++ (point.drop 3).map (fun v => Fl.fin (v / 255)))
          ∧ ab.length = 2 ∧ props3.length = 5 ∧ feats3.length = 8
          ∧ props2.length = 2 ∧ feats2.length = 2 ∧ accf.length = 3 := by
  obtain ⟨acc, _, hlen, hget⟩ :=
    generate_features_rows_shape rt lg cb pi pca3 pca2 rand cloud k rows hok
  refine ⟨hlen, fun i point hpt => ?_⟩
  obtain ⟨ab, p3, f3, p2, f2, accf, hrow, hl1, hl2, hl3, hl4, hl5, hl6, _⟩ :=
    hget i point hpt
  exact ⟨ab, p3, f3, p2, f2, accf, hrow, hl1, hl2, hl3, hl4, hl5, hl6⟩

/-- Witness: C4 amended at the concrete two-point cloud. -/
theorem generate_features_row_layout_witness :
    (generate_features idQ idQ idQ 3 pcaConst3 pcaConst2 [] cloudA 2 none =
      .ok [rowA0, rowA1])
    ∧ (([rowA0, rowA1] : List (List Fl)).length = cloudA.length
      ∧ ∀ (i : ℕ) (point : List ℚ), cloudA[i]? = some point →
          ∃ ab props3 feats3 props2 feats2 accf,
            ([rowA0, rowA1] : List (List Fl))[i]? = some (ab
              ++ [Fl.fin (point.getD 2 0)] ++ props3 ++ feats3 ++ props2
              ++ feats2 ++ accf
              ++ (point.drop 3).map (fun v => Fl.fin (v / 255)))
            ∧ ab.length = 2 ∧ props3.length = 5 ∧ feats3.length = 8
            ∧ props2.length = 2 ∧ feats2.length = 2 ∧ accf.length = 3) :=
  ⟨gf_cloudA_none [],
    generate_features_row_layout idQ idQ idQ 3 pcaConst3 pcaConst2 []
      cloudA 2 [rowA0, rowA1] (gf_cloudA_none [])⟩

/-- C7 (amended): the extra channel values are not carried through
unchanged; every output row ends with the point's extra channel values
each divided by 255 (color normalization to [0,1]), after the 23
feature columns — not immediately after the coordinates as claimed (see
`generate_features_extras_not_unchanged` for the counterexample). -/
theorem generate_features_extras_scaled (rt lg cb : ℚ → ℚ) (pi : ℚ)
    (pca3 : List (ℚ × ℚ × ℚ) → ℚ × ℚ × ℚ) (pca2 : List (ℚ × ℚ) → ℚ × ℚ)
    (rand : List ℕ) (cloud : List (List ℚ)) (k : ℕ) (rows : List (List Fl))
    (hok : generate_features rt lg cb pi pca3 pca2 rand cloud k none =
      .ok rows) :
    ∀ (i : ℕ) (point : List ℚ), cloud[i]? = some point →
      ∃ front, rows[i]? = some (front
          ++ (point.drop 3).map (fun v => Fl.fin (v / 255)))
        ∧ front.length = 23 := by
  obtain ⟨acc, _, _, hget⟩ :=
    generate_features_rows_shape rt lg cb pi pca3 pca2 rand cloud k rows hok
  intro i point hpt
  obtain ⟨ab, p3, f3, p2, f2, accf, hrow, hl1, hl2, hl3, hl4, hl5, hl6, _⟩ :=
    hget i point hpt
  refine ⟨ab ++ [Fl.fin (point.getD 2 0)] ++ p3 ++ f3 ++ p2 ++ f2 ++ accf,
    hrow, ?_⟩
  simp [List.length_append, hl1, hl2, hl3, hl4, hl5, hl6]

/-- Witness: C7 amended at the concrete two-point cloud. -/
theorem generate_features_extras_scaled_witness :
    (generate_features idQ idQ idQ 3 pcaConst3 pcaConst2 [] cloudA 2 none =
      .ok [rowA0, rowA1])
    ∧ ∀ (i : ℕ) (point : List ℚ), cloudA[i]? = some point →
        ∃ front, ([rowA0, rowA1] : List (List Fl))[i]? = some (front
            ++ (point.drop 3).map (fun v => Fl.fin (v / 255)))
          ∧ front.length = 23 :=
  ⟨gf_cloudA_none [],
    generate_features_extras_scaled idQ idQ idQ 3 pcaConst3 pcaConst2 []
      cloudA 2 [rowA0, rowA1] (gf_cloudA_none [])⟩


/-- A list with two distinct positions satisfying a predicate has at
least two entries in its filtering. -/
theorem two_le_length_filter {α : Type} (p : α → Bool) :
    ∀ (l : List α) (i j : ℕ) (x y : α), i < j →
      l[i]? = some x → l[j]? = some y → p x = true → p y = true →
      2 ≤ (l.filter p).length := by
  intro l
  induction l with
  | nil => intro i j x y hij hx hy hpx hpy; simp at hx
  | cons a l ih =>
    intro i j x y hij hx hy hpx hpy
    match i, j with
    | 0, j + 1 =>
      simp only [List.getElem?_cons_zero, Option.some.injEq] at hx
      subst hx
      simp only [List.getElem?_cons_succ] at hy
      have hymem : y ∈ l := List.getElem?_mem hy
      have h1 : 1 ≤ (l.filter p).length :=
        List.length_pos.mpr (List.ne_nil_of_mem
          (List.mem_filter.mpr ⟨hymem, hpy⟩))
      rw [List.filter_cons_of_pos hpx]
      simp only [List.length_cons]
      omega
    | i + 1, j + 1 =>
      simp only [List.getElem?_cons_succ] at hx hy
      have hrec := ih i j x y (by omega) hx hy hpx hpy
      cases hpa : p a with
      | true =>
        rw [List.filter_cons_of_pos hpa]
        simp only [List.length_cons]
        omega
      | false => rw [List.filter_cons_of_neg (by simp [hpa])]; exact hrec

/-- The accumulation lookup succeeds exactly when the coordinate query
matches a single row. -/
theorem retrieve_ok_iff (point : ℚ × ℚ × ℚ) (feats : List AccRow) :
    exOk (retrieve_accumulation_features point feats) = true ↔
      (feats.filter (acc_match point)).length = 1 := by
  unfold retrieve_accumulation_features
  cases hf : feats.filter (acc_match point) with
  | nil => simp [exOk]
  | cons a t =>
    cases t with
    | nil => simp [exOk]
    | cons b t2 =>
      simp only [exOk, List.length_cons]
      constructor
      · intro h; exact absurd h (by simp)
      · intro h; omega

/-- C10: the accumulation lookup succeeds iff the queried coordinate
triple matches exactly one table row; and whenever a cloud contains two
points with identical x, y, z coordinates, the full (non-subsampled)
pipeline run cannot produce output — it aborts with an error: the
accumulation table carries one row per input point with the point's own
coordinates, so for the duplicated point the
`assert point_features.shape[0] == 1` inside
`retrieve_accumulation_features` cannot hold. -/
theorem retrieve_accumulation_requires_unique :
    (∀ (point : ℚ × ℚ × ℚ) (feats : List AccRow),
      exOk (retrieve_accumulation_features point feats) = true ↔
        (feats.filter (acc_match point)).length = 1)
    ∧ ∀ (rt lg cb : ℚ → ℚ) (pi : ℚ)
        (pca3 : List (ℚ × ℚ × ℚ) → ℚ × ℚ × ℚ)
        (pca2 : List (ℚ × ℚ) → ℚ × ℚ) (rand : List ℕ)
        (cloud : List (List ℚ)) (k : ℕ) (i j : ℕ),
        i < j → j < cloud.length →
        xyzOf (cloud.getD i []) = xyzOf (cloud.getD j []) →
        ∃ e, generate_features rt lg cb pi pca3 pca2 rand cloud k none =
          .error e := by
  refine ⟨retrieve_ok_iff, ?_⟩
  intro rt lg cb pi pca3 pca2 rand cloud k i j hij hj hdup
  cases hgf : generate_features rt lg cb pi pca3 pca2 rand cloud k none with
  | error e => exact ⟨e, rfl⟩
  | ok rows =>
    exfalso
    obtain ⟨acc, hacc, hlen, hget⟩ :=
      generate_features_rows_shape rt lg cb pi pca3 pca2 rand cloud k rows hgf
    have hi : i < cloud.length := lt_trans hij hj
    have hpt : cloud[i]? = some (cloud.getD i []) := by
      cases hx : cloud[i]? with
      | none =>
        rw [List.getElem?_eq_none_iff] at hx
        omega
      | some v =>
        rw [List.getD_eq_getElem?_getD, hx]
        rfl
    have hptj : cloud[j]? = some (cloud.getD j []) := by
      cases hx : cloud[j]? with
      | none =>
        rw [List.getElem?_eq_none_iff] at hx
        omega
      | some v =>
        rw [List.getD_eq_getElem?_getD, hx]
        rfl
    obtain ⟨ab, p3, f3, p2, f2, accf, hrow, hl1, hl2, hl3, hl4, hl5, hl6,
      hret⟩ := hget i (cloud.getD i []) hpt
    have hone := (retrieve_ok_iff _ _).mp hret
    have hacc2 : acc = (cloud.map xyzOf).map
        (acc_row rt (1/4) (1/1000) (cloud.map xyzOf)) := by
      match hcl : cloud.map xyzOf with
      | [] =>
        rw [hcl] at hacc
        exact absurd hacc (by simp [build_accumulation_features])
      | q :: qs =>
        rw [hcl] at hacc
        simp only [build_accumulation_features] at hacc
        injection hacc with h2
        rw [← h2, ← hcl]
    have hgeti : acc[i]? = some (acc_row rt (1/4) (1/1000) (cloud.map xyzOf)
        (xyzOf (cloud.getD i []))) := by
      rw [hacc2, List.getElem?_map, List.getElem?_map, hpt]
      rfl
    have hgetj : acc[j]? = some (acc_row rt (1/4) (1/1000) (cloud.map xyzOf)
        (xyzOf (cloud.getD j []))) := by
      rw [hacc2, List.getElem?_map, List.getElem?_map, hptj]
      rfl
    have hpi2 : acc_match (xyzOf (cloud.getD i []))
        (acc_row rt (1/4) (1/1000) (cloud.map xyzOf)
          (xyzOf (cloud.getD i []))) = true := by
      obtain ⟨hx, hy, hz⟩ := acc_row_coords rt (1/4) (1/1000)
        (cloud.map xyzOf) (xyzOf (cloud.getD i []))
      simp only [acc_match, hx, hy, hz]
      simp
    have hpj2 : acc_match (xyzOf (cloud.getD i []))
        (acc_row rt (1/4) (1/1000) (cloud.map xyzOf)
          (xyzOf (cloud.getD j []))) = true := by
      obtain ⟨hx, hy, hz⟩ := acc_row_coords rt (1/4) (1/1000)
        (cloud.map xyzOf) (xyzOf (cloud.getD j []))
      simp only [acc_match, hx, hy, hz, hdup]
      simp
    have htwo := two_le_length_filter (acc_match (xyzOf (cloud.getD i [])))
      acc i j _ _ hij hgeti hgetj hpi2 hpj2
    omega

/-- Witness: C10 at a concrete duplicated cloud — two coincident points
make the full pipeline abort; and the lookup-iff at a concrete
one-row table. -/
theorem retrieve_accumulation_requires_unique_witness :
    ((exOk (retrieve_accumulation_features (1, 2, 3)
        [⟨1, 2, 3, Fl.fin 1, Fl.nan, Fl.fin 0⟩]) = true ↔
      (([⟨1, 2, 3, Fl.fin 1, Fl.nan, Fl.fin 0⟩] : List AccRow).filter
        (acc_match (1, 2, 3))).length = 1)
      ∧ (0 < 1 ∧ 1 < (List.length [[(1 : ℚ), 1, 1], [(1 : ℚ), 1, 1]]))
      ∧ xyzOf ([[(1 : ℚ), 1, 1], [(1 : ℚ), 1, 1]].getD 0 []) =
          xyzOf ([[(1 : ℚ), 1, 1], [(1 : ℚ), 1, 1]].getD 1 []))
    ∧ ∃ e, generate_features idQ idQ idQ 3 pcaConst3 pcaConst2 []
        [[(1 : ℚ), 1, 1], [(1 : ℚ), 1, 1]] 2 none = .error e :=
  ⟨⟨retrieve_accumulation_requires_unique.1 (1, 2, 3)
      [⟨1, 2, 3, Fl.fin 1, Fl.nan, Fl.fin 0⟩],
    ⟨by norm_num, by norm_num⟩, rfl⟩,
    retrieve_accumulation_requires_unique.2 idQ idQ idQ 3 pcaConst3 pcaConst2
      [] [[1, 1, 1], [1, 1, 1]] 2 0 1 (by norm_num) (by norm_num) rfl⟩
